import Mathlib

/-!
Shallow embedding of `src/main.cpp` of the `lstree` repository, a textual
directory-tree visualizer, together with proofs settling the claims about
its hierarchy-rendering engine.

Modelling conventions:
* The filesystem consumed by the program is a value of the nested inductive
  type `FSEntry` (`file` / `dir` / `special`, where `special` stands for a
  path that is neither a regular file nor a directory, e.g. a fifo or a
  dangling symlink).  `none : Option FSEntry` stands for a path that does
  not exist at all.
* The process-wide mutable state (the `level_states` map, the
  `directory_count` / `file_count` counters, and the stdout / stderr
  streams) is threaded explicitly through every function as a record `RSt`.
  `RSt.trace` is a ghost field: it records, in order, every assignment
  `level_states[depth] = s` performed at line 259 of the source, and is
  used only to state invariants about level-state assignments; it has no
  influence on control flow or output.
* `cout << s << endl` is modelled as appending `s ++ "\n"` to `RSt.out`;
  `cerr << ... << endl` appends to `RSt.err`.
* `exit(1)` (reachable only from `generate_x_padding_string`, line 119) is
  modelled by the `Res.exited` result, which aborts the whole run carrying
  the state flushed so far; `main` produces no summary in that case.
* The recursive walk (`generate_directory_hierarchy` ↔
  `process_directory_entries`) is embedded with an explicit fuel parameter
  so that every definition is structurally recursive and evaluates inside
  the kernel: one unit of fuel is consumed per directory-nesting level.
  Running out of fuel yields the sentinel result `Res.exited st 99`, which
  is proved unreachable whenever `sizeOf node ≤ fuel`
  (see `lstree_walk_total`).
-/

namespace Lstree

/-- `enum LevelState` (main.cpp lines 22-26). -/
inductive LevelState where
  | NOT_ITERATING
  | ITERATING
  | NO_VALUE
deriving DecidableEq

/-- A filesystem node: a regular file, a directory with its immediate
children in native enumeration order, or anything else (`special`:
neither a regular file nor a directory). -/
inductive FSEntry where
  | file (nm : String)
  | dir (nm : String) (children : List FSEntry)
  | special (nm : String)

/-- `entry.path().filename().string()` of a directory child. -/
def FSEntry.name : FSEntry → String
  | FSEntry.file nm => nm
  | FSEntry.dir nm _ => nm
  | FSEntry.special nm => nm

/-- The program's mutable global state, threaded explicitly:
`level_states` (line 29), `directory_count` / `file_count` (lines 32-33),
stdout and stderr, plus the ghost `trace` of level-state assignments. -/
structure RSt where
  levels : Nat → Option LevelState
  dirCount : Nat
  fileCount : Nat
  out : String
  err : String
  trace : List (Nat × LevelState)

/-- Result of a stateful computation: either a normal return with the new
state, or `exit(code)` having been called with the given flushed state. -/
inductive Res (α : Type) where
  | ok (a : α)
  | exited (st : RSt) (code : Nat)

/-- The state carried by a result, whichever constructor it is. -/
def Res.state : Res RSt → RSt
  | Res.ok st => st
  | Res.exited st _ => st

/-- Whether the computation returned normally. -/
def Res.isOk : Res RSt → Bool
  | Res.ok _ => true
  | Res.exited _ _ => false

/-- The exit code, if `exit` was called. -/
def Res.exitCode : Res RSt → Option Nat
  | Res.ok _ => none
  | Res.exited _ c => some c

/-- `level_states[d]` as an rvalue: C++ `std::map::operator[]`
value-initializes a missing entry, and `LevelState() = NOT_ITERATING`
(enumerator 0). -/
def levelsGet (levels : Nat → Option LevelState) (d : Nat) : LevelState :=
  (levels d).getD LevelState.NOT_ITERATING

/-- `level_states[d] = s` (assignment). -/
def setLevel (levels : Nat → Option LevelState) (d : Nat) (s : LevelState) :
    Nat → Option LevelState :=
  fun l => if l = d then some s else levels l

/-- `std::string(n, ' ')`. -/
def spaces (n : Nat) : String :=
  String.mk (List.replicate n ' ')

/-- The message written to `cerr` before `exit(1)` at lines 118-119. -/
def levelErrMsg (l : Nat) : String :=
  "Level " ++ toString l ++ " doesn't exist!\n"

/-- `generate_hierarchy_format_string` (lines 76-86). -/
def generate_hierarchy_format_string : LevelState → String
  | LevelState.ITERATING => "├"
  | LevelState.NOT_ITERATING => "└"
  | LevelState.NO_VALUE => ""

/-- `generate_character_string` (lines 95-101): `s` repeated `n` times. -/
def generate_character_string : Nat → String → String
  | 0, _ => ""
  | Nat.succ n, s => generate_character_string n s ++ s

/-- Body of the loop of `generate_x_padding_string` (lines 114-125), run
over the given list of levels.  A missing level produces
`Except.error level` which the callers turn into `cerr` output and
`exit(1)`. -/
def xPadBuild (levels : Nat → Option LevelState) (x_spacing : Nat) :
    List Nat → Except Nat String
  | [] => Except.ok ""
  | l :: rest =>
    match levels l with
    | none => Except.error l
    | some s =>
      match xPadBuild levels x_spacing rest with
      | Except.error e => Except.error e
      | Except.ok tail =>
        Except.ok (((if s = LevelState.ITERATING then "│" else " ") ++
          spaces x_spacing) ++ tail)

/-- `generate_x_padding_string` (lines 111-127): the loop runs for
`level = 1; level < depth`. -/
def generate_x_padding_string (levels : Nat → Option LevelState)
    (depth x_spacing : Nat) : Except Nat String :=
  xPadBuild levels x_spacing (List.range' 1 (depth - 1))

/-- The vertical-padding loop of `generate_entry_string` (lines 148-151),
run over the list of values of `y`. -/
def yPadBuild (levels : Nat → Option LevelState) (x_spacing depth : Nat) :
    List Nat → Except Nat String
  | [] => Except.ok ""
  | y :: rest =>
    if depth > 0 ∨ y > 0 then
      match generate_x_padding_string levels depth x_spacing with
      | Except.error l => Except.error l
      | Except.ok xp =>
        match yPadBuild levels x_spacing depth rest with
        | Except.error l => Except.error l
        | Except.ok tail => Except.ok ((xp ++ "│\n") ++ tail)
    else yPadBuild levels x_spacing depth rest

/-- `generate_entry_string` (lines 138-158). -/
def generate_entry_string (levels : Nat → Option LevelState) (path : String)
    (x_spacing y_spacing depth : Nat) : Except Nat String :=
  if levelsGet levels depth = LevelState.NO_VALUE then Except.ok path
  else
    match yPadBuild levels x_spacing depth (List.range y_spacing) with
    | Except.error l => Except.error l
    | Except.ok y_padding =>
      match generate_x_padding_string levels depth x_spacing with
      | Except.error l => Except.error l
      | Except.ok xp =>
        Except.ok (y_padding ++
          ((xp ++ generate_hierarchy_format_string (levelsGet levels depth)) ++
            generate_character_string x_spacing "─") ++ path)

/-- `get_directory_entry_count` (lines 166-171): counts ALL raw directory
entries, with no ignore-list filtering. -/
def get_directory_entry_count : List FSEntry → Nat
  | [] => 0
  | _ :: rest => get_directory_entry_count rest + 1

/-- `fs::path(p).parent_path()` for the paths built by the walk (which end
in a separator): drop one trailing slash. -/
def stripTrailingSlash (p : String) : String :=
  match p.data.getLast? with
  | some c => if c = '/' then String.mk p.data.dropLast else p
  | none => p

/-- `.filename()`: the characters after the last slash. -/
def afterLastSlash (p : String) : String :=
  String.mk ((p.data.reverse.takeWhile (fun c => c ≠ '/')).reverse)

/-- `fs::path(path).parent_path().filename().string()` (line 314), for the
trailing-slash-terminated paths the walk builds. -/
def lastComponent (p : String) : String :=
  afterLastSlash (stripTrailingSlash p)

/-- Lexicographic comparison of character sequences by codepoint.  This is
exactly `std::string::operator<` (bytewise lexicographic) on UTF-8 data,
since UTF-8 encoding preserves codepoint order. -/
def charListLt : List Char → List Char → Bool
  | _, [] => false
  | [], _ :: _ => true
  | a :: as, b :: bs =>
    if a.toNat < b.toNat then true
    else if b.toNat < a.toNat then false
    else charListLt as bs

/-- The comparator of the `std::sort` call (lines 246-252):
`a.path().filename().string() < b.path().filename().string()`. -/
def entLt (a b : FSEntry) : Prop :=
  charListLt a.name.data b.name.data = true

instance : DecidableRel entLt :=
  fun a b => by unfold entLt; infer_instance

/-- The `std::sort` call (lines 245-253).  For the duplicate-free name
lists a real directory produces, a comparison sort with this comparator
has a unique result, modelled by insertion sort. -/
def sortEntriesFn (l : List FSEntry) : List FSEntry :=
  List.insertionSort entLt l

/-- The ignore-list filter (lines 237-243): keep an entry unless its
filename is exactly equal to some ignore-list element. -/
def filterIgnore (ignore_list : List String) (l : List FSEntry) : List FSEntry :=
  l.filter (fun e => !(ignore_list.contains e.name))

/-- `path_is_valid` (lines 186-213).  `node` is what the filesystem holds
at `path` (`none` if nothing).  Returns `(true, st)` iff `path` is a
valid directory; a regular file is printed as a single entry (with the
file counter bumped) and `false` is returned. -/
def path_is_valid (node : Option FSEntry) (path : String)
    (x_spacing y_spacing depth : Nat) (st : RSt) : Res (Bool × RSt) :=
  if path = "" then
    Res.ok (false, { st with err := st.err ++ "Error: Path is empty!\n" })
  else
    match node with
    | some (FSEntry.file _) =>
      let st1 := { st with fileCount := st.fileCount + 1 }
      match generate_entry_string st1.levels path x_spacing y_spacing depth with
      | Except.error l => Res.exited { st1 with err := st1.err ++ levelErrMsg l } 1
      | Except.ok s => Res.ok (false, { st1 with out := st1.out ++ s ++ "\n" })
    | some (FSEntry.dir _ _) => Res.ok (true, st)
    | _ =>
      Res.ok (false,
        { st with err := st.err ++ "Error: Path is neither a file nor a directory!\n" })

/-- The per-sibling level state chosen at lines 259-261:
`entry_index != entry_count ? ITERATING : NOT_ITERATING`. -/
def assignedState (entry_index entry_count : Nat) : LevelState :=
  if entry_index ≠ entry_count then LevelState.ITERATING else LevelState.NOT_ITERATING

/-- Lines 303-305 and 317-319: append a `'/'` unless the string already
ends in one. -/
def ensureSlash (p : String) : String :=
  if p.back ≠ '/' then p ++ "/" else p

/-- Lines 306-319: the display name of the directory whose
slash-terminated path is `path` — the full path when the current level
state is `NO_VALUE` (the root), otherwise the last path component — with
a trailing slash ensured. -/
def displayName (levels : Nat → Option LevelState) (depth : Nat)
    (path : String) : String :=
  ensureSlash
    (if levelsGet levels depth = LevelState.NO_VALUE then path
     else lastComponent path)

/-- The `for (const auto& entry : entries)` loop of
`process_directory_entries` (lines 255-280), structurally recursive on the
remaining entries.  `gen_rec` is the recursive reference to
`generate_directory_hierarchy` (the knot is tied by `genDirF` below).
`idx` is the value of `entry_index` before the pre-increment at line 257.
Note line 276-278: the recursive call passes NO ignore list (the `{}`
default applies), and the level-state assignment at line 259 happens
before the file/directory dispatch, so a `special` entry still consumes a
sibling slot and a level-state assignment. -/
def process_entries_loop
    (gen_rec : Option FSEntry → String → Nat → Nat → Nat → Bool →
      List String → RSt → Res RSt) :
    List FSEntry → String → Nat → Nat → Nat → Nat → Bool → RSt → Nat → Res RSt
  | [], _, _, _, _, _, _, st, _ => Res.ok st
  | e :: rest, path, x_spacing, y_spacing, depth, entry_count, sort_entries, st, idx =>
    let entry_index := idx + 1
    let s := assignedState entry_index entry_count
    let st1 := { st with levels := setLevel st.levels depth s,
                         trace := st.trace ++ [(depth, s)] }
    match e with
    | FSEntry.file nm =>
      let st2 := { st1 with fileCount := st1.fileCount + 1 }
      match generate_entry_string st2.levels nm x_spacing y_spacing depth with
      | Except.error l => Res.exited { st2 with err := st2.err ++ levelErrMsg l } 1
      | Except.ok sOut =>
        process_entries_loop gen_rec rest path x_spacing y_spacing depth entry_count
          sort_entries { st2 with out := st2.out ++ sOut ++ "\n" } entry_index
    | FSEntry.dir nm _ =>
      let st2 := { st1 with dirCount := st1.dirCount + 1 }
      match gen_rec (some e) (path ++ nm) x_spacing y_spacing depth
          sort_entries [] st2 with
      | Res.exited s' c => Res.exited s' c
      | Res.ok st3 =>
        process_entries_loop gen_rec rest path x_spacing y_spacing depth entry_count
          sort_entries st3 entry_index
    | FSEntry.special _ =>
      process_entries_loop gen_rec rest path x_spacing y_spacing depth entry_count
        sort_entries st1 entry_index

/-- `process_directory_entries` (lines 226-281), parameterized by the
recursive reference to `generate_directory_hierarchy`: collect the
children minus ignored names, sort if requested, then run the loop. -/
def process_directory_entries_body
    (gen_rec : Option FSEntry → String → Nat → Nat → Nat → Bool →
      List String → RSt → Res RSt)
    (children : List FSEntry) (path : String)
    (x_spacing y_spacing depth entry_count : Nat) (sort_entries : Bool)
    (ignore_list : List String) (st : RSt) : Res RSt :=
  let entries := filterIgnore ignore_list children
  let entries := if sort_entries then sortEntriesFn entries else entries
  process_entries_loop gen_rec entries path x_spacing y_spacing depth entry_count
    sort_entries st 0

/-- `generate_directory_hierarchy` (lines 293-335), parameterized by its
own recursive reference (used for the subdirectory calls made by
`process_directory_entries`).  The `Res.ok st1` fallthrough arm for a
non-directory `node` is unreachable, since `path_is_valid` answers `true`
only for a directory. -/
def generate_directory_hierarchy_body
    (gen_rec : Option FSEntry → String → Nat → Nat → Nat → Bool →
      List String → RSt → Res RSt)
    (node : Option FSEntry) (path0 : String) (x_spacing y_spacing depth : Nat)
    (sort_entries : Bool) (ignore_list : List String) (st : RSt) : Res RSt :=
  match path_is_valid node path0 x_spacing y_spacing depth st with
  | Res.exited s c => Res.exited s c
  | Res.ok (false, st1) => Res.ok st1
  | Res.ok (true, st1) =>
    match node with
    | some (FSEntry.dir _ children) =>
      let path := ensureSlash path0
      let path_name := displayName st1.levels depth path
      match generate_entry_string st1.levels path_name x_spacing y_spacing depth with
      | Except.error l => Res.exited { st1 with err := st1.err ++ levelErrMsg l } 1
      | Except.ok s =>
        let st2 := { st1 with out := st1.out ++ s ++ "\n" }
        process_directory_entries_body gen_rec children path x_spacing y_spacing
          (depth + 1) (get_directory_entry_count children) sort_entries ignore_list st2
    | _ => Res.ok st1

/-- The recursive knot, with explicit fuel: one unit of fuel is consumed
per `generate_directory_hierarchy` nesting level, so any
`fuel ≥ sizeOf node` is sufficient (see `lstree_walk_total`). -/
def genDirF : Nat → Option FSEntry → String → Nat → Nat → Nat → Bool →
    List String → RSt → Res RSt
  | 0, _, _, _, _, _, _, _, st => Res.exited st 99
  | Nat.succ fuel, node, path0, x_spacing, y_spacing, depth, sort_entries, ignore_list, st =>
    generate_directory_hierarchy_body (genDirF fuel) node path0 x_spacing y_spacing
      depth sort_entries ignore_list st
termination_by structural fuel => fuel

/-- `generate_directory_hierarchy` under its source name; `fuel` is the
recursion-depth budget (any `fuel ≥ sizeOf node` is sufficient, see
`lstree_walk_total`). -/
def generate_directory_hierarchy (fuel : Nat) (node : Option FSEntry)
    (path : String) (x_spacing y_spacing depth : Nat) (sort_entries : Bool)
    (ignore_list : List String) (st : RSt) : Res RSt :=
  genDirF fuel node path x_spacing y_spacing depth sort_entries ignore_list st

/-- `process_directory_entries` under its source name; subdirectories are
walked with `fuel` as their recursion-depth budget. -/
def process_directory_entries (fuel : Nat) (children : List FSEntry)
    (path : String) (x_spacing y_spacing depth entry_count : Nat)
    (sort_entries : Bool) (ignore_list : List String) (st : RSt) : Res RSt :=
  process_directory_entries_body (genDirF fuel) children path x_spacing y_spacing
    depth entry_count sort_entries ignore_list st

/-- `fs::is_regular_file(p)` for the initial path (line 384). -/
def fsIsFile (root : Option FSEntry) (p : String) : Bool :=
  if p = "" then false
  else match root with
    | some (FSEntry.file _) => true
    | _ => false

/-- `fs::is_directory(p)` for the initial path (line 391). -/
def fsIsDir (root : Option FSEntry) (p : String) : Bool :=
  if p = "" then false
  else match root with
    | some (FSEntry.dir _ _) => true
    | _ => false

/-- `level_states[0] = NO_VALUE` and zeroed counters: the state right
after line 382. -/
def initRSt : RSt :=
  { levels := fun d => if d = 0 then some LevelState.NO_VALUE else none,
    dirCount := 0, fileCount := 0, out := "", err := "", trace := [] }

/-- The summary printed at lines 401-404. -/
def summaryString (d f : Nat) : String :=
  "\n" ++ toString d ++ (if d = 1 then " directory, " else " directories, ") ++
    toString f ++ (if f = 1 then " file\n" else " files\n")

/-- The post-parsing part of `main` (lines 380-406): `fsRoot` is what the
filesystem holds at `directory_path`.  Returns the final state (with
`out` holding everything printed) and the process exit code. -/
def runMain (fuel : Nat) (fsRoot : Option FSEntry) (directory_path : String)
    (x_spacing y_spacing : Nat) (sort_entries : Bool)
    (ignore_list : List String) : RSt × Nat :=
  if fsIsFile fsRoot directory_path then
    let st1 := { initRSt with fileCount := 1 }
    match generate_directory_hierarchy fuel fsRoot directory_path x_spacing
        y_spacing 0 sort_entries [] st1 with
    | Res.exited st c => (st, c)
    | Res.ok st => ({ st with out := st.out ++ "\n0 directories, 1 file\n" }, 0)
  else
    let st1 := if fsIsDir fsRoot directory_path then { initRSt with dirCount := 1 }
      else initRSt
    match generate_directory_hierarchy fuel fsRoot directory_path x_spacing
        y_spacing 0 sort_entries ignore_list st1 with
    | Res.exited st c => (st, c)
    | Res.ok st =>
      ({ st with out := st.out ++ summaryString st.dirCount st.fileCount }, 0)

/-! ### Specification-side definitions

The following definitions restate, in the spec's own vocabulary, the
shapes that the claims talk about.  They are compared against the
source-derived definitions above by the theorems below. -/

/-- Levels `1 .. d-1` all carry a recorded state (the recursion invariant
needed so that `generate_x_padding_string` never hits a missing level at
depth `d`). -/
def SetBelow (levels : Nat → Option LevelState) (d : Nat) : Prop :=
  ∀ l, 1 ≤ l → l < d → (levels l).isSome = true

/-- Concatenation of a list of strings. -/
def strConcat (l : List String) : String :=
  l.foldr (fun a b => a ++ b) ""

/-- Number of newline characters in a string (= number of completed lines
preceding the final, unterminated one). -/
def newlineCount (s : String) : Nat :=
  s.data.count '\n'

/-- The padding segment contributed by ancestor level `l` according to the
spec: a vertical bar if that ancestor is `Iterating`, otherwise a blank,
followed by `x_spacing` blanks (total width `1 + x_spacing`). -/
def specSegment (levels : Nat → Option LevelState) (x_spacing l : Nat) : String :=
  (if levelsGet levels l = LevelState.ITERATING then "│" else " ") ++ spaces x_spacing

/-- The ancestor padding for an entry at depth `depth`: one segment per
ancestor level `1 .. depth-1`. -/
def specAncestorPad (levels : Nat → Option LevelState) (depth x_spacing : Nat) : String :=
  strConcat ((List.range' 1 (depth - 1)).map (specSegment levels x_spacing))

/-- The connector glyph the spec prescribes for the current depth's own
state: `├` for `Iterating`, `└` for `NotIterating`. -/
def specConnector (levels : Nat → Option LevelState) (depth : Nat) : String :=
  if levelsGet levels depth = LevelState.ITERATING then "├" else "└"

/-- `x_spacing` copies of the horizontal-rule character. -/
def specRule (x_spacing : Nat) : String :=
  strConcat (List.replicate x_spacing "─")

/-- The one extra vertical-padding row the spec describes: ancestor
padding followed by a lone vertical-continuation bar. -/
def specPadRow (levels : Nat → Option LevelState) (depth x_spacing : Nat) : String :=
  specAncestorPad levels depth x_spacing ++ "│\n"

/-- The entry's own line (after any vertical padding): ancestor padding,
connector, horizontal rule, display name. -/
def specEntryLine (levels : Nat → Option LevelState) (path : String)
    (depth x_spacing : Nat) : String :=
  specAncestorPad levels depth x_spacing ++
    (specConnector levels depth ++ (specRule x_spacing ++ path))

/-- Number of directory nodes in a list of children and, recursively, in
all their subtrees (each directory child counts itself plus its own
subtree). -/
def modelDirsList : List FSEntry → Nat
  | [] => 0
  | FSEntry.dir _ gch :: rest => 1 + modelDirsList gch + modelDirsList rest
  | FSEntry.file _ :: rest => modelDirsList rest
  | FSEntry.special _ :: rest => modelDirsList rest

/-- Number of regular-file nodes in a list of children and all their
subtrees. -/
def modelFilesList : List FSEntry → Nat
  | [] => 0
  | FSEntry.file _ :: rest => 1 + modelFilesList rest
  | FSEntry.dir _ gch :: rest => modelFilesList gch + modelFilesList rest
  | FSEntry.special _ :: rest => modelFilesList rest

/-- Per-child weight towards the directory counter. -/
def dirWeight : FSEntry → Nat
  | FSEntry.dir _ gch => 1 + modelDirsList gch
  | _ => 0

/-- Per-child weight towards the file counter. -/
def fileWeight : FSEntry → Nat
  | FSEntry.file _ => 1
  | FSEntry.dir _ gch => modelFilesList gch
  | _ => 0

/-- Directories a `generate_directory_hierarchy` invocation adds to the
directory counter. -/
def mDirs : Option FSEntry → List String → Nat
  | some (FSEntry.dir _ ch), ignore_list => modelDirsList (filterIgnore ignore_list ch)
  | _, _ => 0

/-- Files a `generate_directory_hierarchy` invocation adds to the file
counter (a regular-file path itself is printed and counted once). -/
def mFiles : Option FSEntry → List String → Nat
  | some (FSEntry.file _), _ => 1
  | some (FSEntry.dir _ ch), ignore_list => modelFilesList (filterIgnore ignore_list ch)
  | _, _ => 0

/-- The summary line as the spec words it: singular forms for a count of
one, plural otherwise. -/
def specSummary (d f : Nat) : String :=
  "\n" ++ toString d ++ (if d = 1 then " directory" else " directories") ++
    ", " ++ (toString f ++ ((if f = 1 then " file" else " files") ++ "\n"))

/-- Behaviour of one `generate_directory_hierarchy` invocation at depth
`depth` from state `st`: normal return, level-entries only ever added,
trace extended only with assignments at depths `> depth`, and both
counters advanced by the subtree's visit counts. -/
def GenOut (node : Option FSEntry) (ignore_list : List String) (depth : Nat)
    (st : RSt) (r : Res RSt) : Prop :=
  ∃ st' Δ, r = Res.ok st' ∧
    (∀ l, (st.levels l).isSome = true → (st'.levels l).isSome = true) ∧
    st'.trace = st.trace ++ Δ ∧ (∀ p ∈ Δ, depth + 1 ≤ p.1) ∧
    st'.dirCount = st.dirCount + mDirs node ignore_list ∧
    st'.fileCount = st.fileCount + mFiles node ignore_list

/-- Behaviour of the sibling loop over `l` at depth `depth` with total
`entry_count` and starting index `idx`: normal return, trace extended
with assignments at depths `≥ depth`, whose depth-`depth` sub-sequence is
exactly one assignment per element of `l` following the
`entry_index ≠ entry_count` rule, and counters advanced by the summed
child weights. -/
def LoopOut (l : List FSEntry) (depth entry_count idx : Nat) (st : RSt)
    (r : Res RSt) : Prop :=
  ∃ st' Δ, r = Res.ok st' ∧
    (∀ l', (st.levels l').isSome = true → (st'.levels l').isSome = true) ∧
    st'.trace = st.trace ++ Δ ∧ (∀ p ∈ Δ, depth ≤ p.1) ∧
    Δ.filter (fun p => decide (p.1 = depth)) =
      (List.range l.length).map (fun i => (depth, assignedState (idx + 1 + i) entry_count)) ∧
    st'.dirCount = st.dirCount + modelDirsList l ∧
    st'.fileCount = st.fileCount + modelFilesList l

/-- The example tree of the spec: `docs/` containing `a.txt` and `sub/`,
the latter containing `b.txt`. -/
def docsTree : FSEntry :=
  FSEntry.dir "docs" [FSEntry.file "a.txt", FSEntry.dir "sub" [FSEntry.file "b.txt"]]

/-- A tree whose subdirectory `sub/` contains a file named `junk`. -/
def junkTree : FSEntry :=
  FSEntry.dir "root" [FSEntry.dir "sub" [FSEntry.file "junk"]]

/-- A level-state table with depth 0 and depth 1 recorded (depth 1 as
`ITERATING`), as it stands while the first of several siblings at depth 1
is being rendered. -/
def lvOneIter : Nat → Option LevelState :=
  fun d => if d = 0 then some LevelState.NO_VALUE
    else if d = 1 then some LevelState.ITERATING else none

/-- A corrupted level-state table: depth 2 is recorded but its ancestor
depth 1 is not — the `InvalidLevelState` situation. -/
def badLevels : Nat → Option LevelState :=
  fun d => if d = 0 then some LevelState.NO_VALUE
    else if d = 2 then some LevelState.ITERATING else none

/-- State carrying `badLevels`. -/
def badRSt : RSt :=
  { initRSt with levels := badLevels }

/-! ### Helper lemmas -/

theorem strConcat_cons (a : String) (l : List String) :
    strConcat (a :: l) = a ++ strConcat l := rfl

theorem strConcat_nil : strConcat [] = "" := rfl

theorem strConcat_replicate_comm (n : Nat) (s : String) :
    strConcat (List.replicate n s) ++ s = s ++ strConcat (List.replicate n s) := by
  induction n with
  | zero => simp [strConcat]
  | succ n ih =>
    rw [List.replicate_succ, strConcat_cons, String.append_assoc, ih,
      ← String.append_assoc]

theorem generate_character_string_eq (n : Nat) (s : String) :
    generate_character_string n s = strConcat (List.replicate n s) := by
  induction n with
  | zero => rfl
  | succ n ih =>
    rw [generate_character_string, ih, List.replicate_succ, strConcat_cons,
      ← strConcat_replicate_comm]

theorem connector_eq (s : LevelState) (h : s ≠ LevelState.NO_VALUE) :
    generate_hierarchy_format_string s =
      (if s = LevelState.ITERATING then "├" else "└") := by
  cases s <;> simp_all [generate_hierarchy_format_string]

theorem xPadBuild_eq (levels : Nat → Option LevelState) (x_spacing : Nat)
    (L : List Nat) (h : ∀ l ∈ L, (levels l).isSome = true) :
    xPadBuild levels x_spacing L =
      Except.ok (strConcat (L.map (specSegment levels x_spacing))) := by
  induction L with
  | nil => rfl
  | cons a L ih =>
    obtain ⟨s, hs⟩ := Option.isSome_iff_exists.mp (h a (List.mem_cons_self a L))
    rw [xPadBuild, hs, ih (fun l hl => h l (List.mem_cons_of_mem a hl))]
    simp [strConcat_cons, specSegment, levelsGet, hs]

theorem generate_x_padding_string_eq (levels : Nat → Option LevelState)
    (depth x_spacing : Nat) (h : SetBelow levels depth) :
    generate_x_padding_string levels depth x_spacing =
      Except.ok (specAncestorPad levels depth x_spacing) := by
  rw [generate_x_padding_string, specAncestorPad, xPadBuild_eq]
  intro l hl
  rcases List.mem_range'_1.mp hl with ⟨h1, h2⟩
  exact h l h1 (by omega)

theorem yPadBuild_eq (levels : Nat → Option LevelState) (x_spacing depth : Nat)
    (hd : 0 < depth) (h : SetBelow levels depth) (Y : List Nat) :
    yPadBuild levels x_spacing depth Y =
      Except.ok (strConcat (Y.map (fun _ => specPadRow levels depth x_spacing))) := by
  induction Y with
  | nil => rfl
  | cons y Y ih =>
    rw [yPadBuild, if_pos (Or.inl hd), generate_x_padding_string_eq levels depth x_spacing h,
      ih]
    simp [strConcat_cons, specPadRow]

/-- Characterization of `generate_entry_string` at a positive depth whose
own state is recorded as something other than `NO_VALUE`: the result is
`y_spacing` vertical-padding rows followed by the entry's own line. -/
theorem generate_entry_string_eq (levels : Nat → Option LevelState)
    (path : String) (x_spacing y_spacing depth : Nat) (hd : 0 < depth)
    (hset : SetBelow levels depth)
    (hnv : levelsGet levels depth ≠ LevelState.NO_VALUE) :
    generate_entry_string levels path x_spacing y_spacing depth =
      Except.ok (strConcat (List.replicate y_spacing (specPadRow levels depth x_spacing)) ++
        specEntryLine levels path depth x_spacing) := by
  rw [generate_entry_string, if_neg hnv, yPadBuild_eq levels x_spacing depth hd hset,
    generate_x_padding_string_eq levels depth x_spacing hset]
  rw [List.map_const', List.length_range]
  rw [connector_eq _ hnv, generate_character_string_eq]
  simp [specEntryLine, specConnector, specRule, String.append_assoc]

/-- At a depth whose recorded state is `NO_VALUE` (the root), the entry is
the raw display name: no padding, no connector. -/
theorem generate_entry_string_root (levels : Nat → Option LevelState)
    (path : String) (x_spacing y_spacing depth : Nat)
    (h : levelsGet levels depth = LevelState.NO_VALUE) :
    generate_entry_string levels path x_spacing y_spacing depth = Except.ok path := by
  rw [generate_entry_string, if_pos h]

theorem yPadBuild_ok (levels : Nat → Option LevelState) (x_spacing depth : Nat)
    (h : SetBelow levels depth) (Y : List Nat) :
    ∃ s, yPadBuild levels x_spacing depth Y = Except.ok s := by
  induction Y with
  | nil => exact ⟨"", rfl⟩
  | cons y Y ih =>
    obtain ⟨t, ht⟩ := ih
    rw [yPadBuild]
    by_cases hc : depth > 0 ∨ y > 0
    · rw [if_pos hc, generate_x_padding_string_eq levels depth x_spacing h, ht]
      exact ⟨_, rfl⟩
    · rw [if_neg hc, ht]
      exact ⟨t, rfl⟩

/-- As long as all ancestor levels `1 .. depth-1` are recorded,
`generate_entry_string` cannot hit the missing-level exit. -/
theorem generate_entry_string_ok (levels : Nat → Option LevelState)
    (path : String) (x_spacing y_spacing depth : Nat)
    (h : SetBelow levels depth) :
    ∃ s, generate_entry_string levels path x_spacing y_spacing depth = Except.ok s := by
  by_cases hnv : levelsGet levels depth = LevelState.NO_VALUE
  · exact ⟨path, generate_entry_string_root levels path x_spacing y_spacing depth hnv⟩
  · obtain ⟨t, ht⟩ := yPadBuild_ok levels x_spacing depth h (List.range y_spacing)
    rw [generate_entry_string, if_neg hnv, ht,
      generate_x_padding_string_eq levels depth x_spacing h]
    exact ⟨_, rfl⟩

theorem setLevel_isSome_of (levels : Nat → Option LevelState) (d : Nat)
    (s : LevelState) (l : Nat) (h : (levels l).isSome = true) :
    ((setLevel levels d s) l).isSome = true := by
  unfold setLevel
  by_cases hl : l = d <;> simp [hl, h]

theorem setLevel_isSome_self (levels : Nat → Option LevelState) (d : Nat)
    (s : LevelState) : ((setLevel levels d s) d).isSome = true := by
  simp [setLevel]

theorem SetBelow_of_mono (levels levels' : Nat → Option LevelState) (d : Nat)
    (hm : ∀ l, (levels l).isSome = true → (levels' l).isSome = true)
    (h : SetBelow levels d) : SetBelow levels' d :=
  fun l h1 h2 => hm l (h l h1 h2)

theorem SetBelow_setLevel (levels : Nat → Option LevelState) (d dset : Nat)
    (s : LevelState) (h : SetBelow levels d) :
    SetBelow (setLevel levels dset s) d :=
  SetBelow_of_mono levels _ d (fun l => setLevel_isSome_of levels dset s l) h

theorem SetBelow_succ_setLevel (levels : Nat → Option LevelState) (d : Nat)
    (s : LevelState) (h : SetBelow levels d) :
    SetBelow (setLevel levels d s) (d + 1) := by
  intro l h1 h2
  by_cases hl : l = d
  · subst hl; exact setLevel_isSome_self levels l s
  · exact setLevel_isSome_of levels d s l (h l h1 (by omega))

theorem one_le_sizeOf_opt (node : Option FSEntry) : 1 ≤ sizeOf node := by
  cases node <;> simp

theorem mem_of_mem_sortIf (sort_entries : Bool) (l : List FSEntry) (e : FSEntry)
    (h : e ∈ (if sort_entries then sortEntriesFn l else l)) : e ∈ l := by
  cases sort_entries with
  | false => simpa using h
  | true =>
    simp only [if_pos] at h
    exact (List.perm_insertionSort entLt l).mem_iff.mp h

theorem mem_of_mem_filterIgnore (ignore_list : List String) (l : List FSEntry)
    (e : FSEntry) (h : e ∈ filterIgnore ignore_list l) : e ∈ l :=
  (List.mem_filter.mp h).1

theorem filterIgnore_nil (l : List FSEntry) : filterIgnore [] l = l := by
  induction l with
  | nil => rfl
  | cons e rest ih =>
    show List.filter _ (e :: rest) = e :: rest
    rw [List.filter_cons]
    simp [filterIgnore] at ih
    simp [ih]

theorem modelDirsList_eq_sum (l : List FSEntry) :
    modelDirsList l = (l.map dirWeight).sum := by
  induction l with
  | nil => simp [modelDirsList]
  | cons e rest ih => cases e <;> simp [modelDirsList, dirWeight, ih]

theorem modelFilesList_eq_sum (l : List FSEntry) :
    modelFilesList l = (l.map fileWeight).sum := by
  induction l with
  | nil => simp [modelFilesList]
  | cons e rest ih => cases e <;> simp [modelFilesList, fileWeight, ih]

theorem modelDirsList_perm (l l' : List FSEntry) (h : l.Perm l') :
    modelDirsList l = modelDirsList l' := by
  rw [modelDirsList_eq_sum, modelDirsList_eq_sum]
  exact (h.map dirWeight).sum_eq

theorem modelFilesList_perm (l l' : List FSEntry) (h : l.Perm l') :
    modelFilesList l = modelFilesList l' := by
  rw [modelFilesList_eq_sum, modelFilesList_eq_sum]
  exact (h.map fileWeight).sum_eq

theorem modelDirsList_sortIf (sort_entries : Bool) (l : List FSEntry) :
    modelDirsList (if sort_entries then sortEntriesFn l else l) = modelDirsList l := by
  cases sort_entries with
  | false => rfl
  | true => exact modelDirsList_perm _ _ (List.perm_insertionSort entLt l)

theorem modelFilesList_sortIf (sort_entries : Bool) (l : List FSEntry) :
    modelFilesList (if sort_entries then sortEntriesFn l else l) = modelFilesList l := by
  cases sort_entries with
  | false => rfl
  | true => exact modelFilesList_perm _ _ (List.perm_insertionSort entLt l)

theorem summaryString_eq_spec (d f : Nat) : summaryString d f = specSummary d f := by
  have h1 : (" directory, " : String) = " directory" ++ ", " := by decide
  have h2 : (" directories, " : String) = " directories" ++ ", " := by decide
  have h3 : (" file\n" : String) = " file" ++ "\n" := by decide
  have h4 : (" files\n" : String) = " files" ++ "\n" := by decide
  rw [summaryString, specSummary]
  by_cases hd : d = 1 <;> by_cases hf : f = 1 <;>
    simp [hd, hf, h1, h2, h3, h4, String.append_assoc]

theorem data_ne_nil_of_ne_empty (p : String) (hp : p ≠ "") : p.data ≠ [] := by
  intro h
  exact hp (String.ext (h.trans rfl))

theorem append_ne_empty_left (p q : String) (hp : p ≠ "") : p ++ q ≠ "" := by
  intro h
  have hd := congrArg String.data h
  rw [String.data_append] at hd
  rcases List.append_eq_nil.mp hd with ⟨h1, _⟩
  exact data_ne_nil_of_ne_empty p hp h1

theorem append_slash_ne_empty (p : String) : p ++ "/" ≠ "" := by
  intro h
  have hd := congrArg String.data h
  rw [String.data_append] at hd
  rcases List.append_eq_nil.mp hd with ⟨_, h2⟩
  exact absurd h2 (by decide)

/-- The slash-ensured path built at lines 303-305 is nonempty. -/
theorem ensureSlash_ne_empty (p : String) (hp : p ≠ "") :
    ensureSlash p ≠ "" := by
  unfold ensureSlash
  by_cases hb : p.back ≠ '/'
  · rw [if_pos hb]; exact append_slash_ne_empty p
  · rw [if_neg hb]; exact hp

theorem path_is_valid_dir (nm : String) (children : List FSEntry) (path : String)
    (x_spacing y_spacing depth : Nat) (st : RSt) (hp : path ≠ "") :
    path_is_valid (some (FSEntry.dir nm children)) path x_spacing y_spacing depth st =
      Res.ok (true, st) := by
  unfold path_is_valid
  rw [if_neg hp]

theorem path_is_valid_file (nm path : String) (x_spacing y_spacing depth : Nat)
    (st : RSt) (s : String) (hp : path ≠ "")
    (hs : generate_entry_string st.levels path x_spacing y_spacing depth = Except.ok s) :
    path_is_valid (some (FSEntry.file nm)) path x_spacing y_spacing depth st =
      Res.ok (false, { st with fileCount := st.fileCount + 1,
                               out := st.out ++ s ++ "\n" }) := by
  unfold path_is_valid
  rw [if_neg hp]
  simp only [hs]

theorem path_is_valid_none (path : String) (x_spacing y_spacing depth : Nat)
    (st : RSt) (hp : path ≠ "") :
    path_is_valid none path x_spacing y_spacing depth st =
      Res.ok (false,
        { st with err := st.err ++ "Error: Path is neither a file nor a directory!\n" }) := by
  unfold path_is_valid
  rw [if_neg hp]

theorem path_is_valid_special (nm path : String) (x_spacing y_spacing depth : Nat)
    (st : RSt) (hp : path ≠ "") :
    path_is_valid (some (FSEntry.special nm)) path x_spacing y_spacing depth st =
      Res.ok (false,
        { st with err := st.err ++ "Error: Path is neither a file nor a directory!\n" }) := by
  unfold path_is_valid
  rw [if_neg hp]

theorem filter_depth_nil (Δ : List (Nat × LevelState)) (depth : Nat)
    (h : ∀ p ∈ Δ, depth + 1 ≤ p.1) :
    Δ.filter (fun p => decide (p.1 = depth)) = [] := by
  apply List.filter_eq_nil_iff.mpr
  intro p hp
  have := h p hp
  simp only [decide_eq_true_eq]
  omega

theorem range_map_cons {α : Type} (n : Nat) (f : Nat → α) :
    (List.range (n + 1)).map f = f 0 :: (List.range n).map (fun i => f (i + 1)) := by
  rw [List.range_succ_eq_map, List.map_cons, List.map_map]
  rfl

/-- Behaviour of the sibling loop, given that the recursive reference
satisfies the invocation contract (`GenOut`) on every node of the list. -/
theorem process_entries_loop_spec
    (gen_rec : Option FSEntry → String → Nat → Nat → Nat → Bool →
      List String → RSt → Res RSt)
    (path : String) (x_spacing y_spacing depth entry_count : Nat)
    (sort_entries : Bool) (l : List FSEntry)
    (hg : ∀ e ∈ l, ∀ st2 : RSt, SetBelow st2.levels (depth + 1) →
      GenOut (some e) [] depth st2
        (gen_rec (some e) (path ++ e.name) x_spacing y_spacing depth
          sort_entries [] st2)) :
    ∀ (st : RSt) (idx : Nat), SetBelow st.levels depth →
      LoopOut l depth entry_count idx st
        (process_entries_loop gen_rec l path x_spacing y_spacing depth
          entry_count sort_entries st idx) := by
  induction l with
  | nil =>
    intro st idx _
    refine ⟨st, [], rfl, fun _ h => h, by simp, by simp, by simp, ?_, ?_⟩
    · simp [modelDirsList]
    · simp [modelFilesList]
  | cons e rest ih =>
    intro st idx hset
    have hgrest : ∀ e' ∈ rest, ∀ st2 : RSt, SetBelow st2.levels (depth + 1) →
        GenOut (some e') [] depth st2
          (gen_rec (some e') (path ++ e'.name) x_spacing y_spacing depth
            sort_entries [] st2) :=
      fun e' he' => hg e' (List.mem_cons_of_mem e he')
    cases e with
    | file nm =>
      have hset1 : SetBelow (setLevel st.levels depth
          (assignedState (idx + 1) entry_count)) depth :=
        SetBelow_setLevel st.levels depth depth _ hset
      obtain ⟨sOut, hsOut⟩ :=
        generate_entry_string_ok (setLevel st.levels depth
          (assignedState (idx + 1) entry_count)) nm x_spacing y_spacing depth hset1
      simp only [process_entries_loop, hsOut]
      obtain ⟨st', Δr, hok, hmono, htr, hΔ, hfil, hdc, hfc⟩ :=
        ih hgrest
          { st with levels := setLevel st.levels depth (assignedState (idx + 1) entry_count),
                    trace := st.trace ++ [(depth, assignedState (idx + 1) entry_count)],
                    fileCount := st.fileCount + 1,
                    out := st.out ++ sOut ++ "\n" }
          (idx + 1) hset1
      refine ⟨st', (depth, assignedState (idx + 1) entry_count) :: Δr, hok, ?_, ?_, ?_, ?_, ?_, ?_⟩
      · intro l' hl'
        exact hmono l' (setLevel_isSome_of st.levels depth _ l' hl')
      · simpa using htr
      · intro p hp
        rcases List.mem_cons.mp hp with h | h
        · subst h; omega
        · exact hΔ p h
      · rw [List.filter_cons]
        simp only [decide_eq_true_eq, if_true, List.length_cons]
        rw [hfil, range_map_cons rest.length (fun i => (depth, assignedState (idx + 1 + i) entry_count))]
        congr 1
        apply List.map_congr_left
        intro a _
        have : idx + 1 + 1 + a = idx + 1 + (a + 1) := by omega
        rw [this]
      · rw [hdc]
        simp [modelDirsList]
      · rw [hfc]
        simp [modelFilesList]
        omega
    | dir nm gch =>
      have hset1 : SetBelow (setLevel st.levels depth
          (assignedState (idx + 1) entry_count)) (depth + 1) :=
        SetBelow_succ_setLevel st.levels depth _ hset
      obtain ⟨st3, Δc, hok3, hmono3, htr3, hΔc, hdc3, hfc3⟩ :=
        hg (FSEntry.dir nm gch) (List.mem_cons_self _ _)
          { st with levels := setLevel st.levels depth (assignedState (idx + 1) entry_count),
                    trace := st.trace ++ [(depth, assignedState (idx + 1) entry_count)],
                    dirCount := st.dirCount + 1 }
          hset1
      simp only [FSEntry.name] at hok3
      simp only [process_entries_loop, hok3]
      obtain ⟨st', Δr, hok, hmono, htr, hΔ, hfil, hdc, hfc⟩ :=
        ih hgrest st3 (idx + 1)
          (SetBelow_of_mono _ _ depth
            (fun l' hl' => hmono3 l' hl')
            (SetBelow_setLevel st.levels depth depth _ hset))
      refine ⟨st', (depth, assignedState (idx + 1) entry_count) :: (Δc ++ Δr), hok, ?_, ?_, ?_, ?_, ?_, ?_⟩
      · intro l' hl'
        exact hmono l' (hmono3 l' (setLevel_isSome_of st.levels depth _ l' hl'))
      · rw [htr, htr3]
        simp
      · intro p hp
        rcases List.mem_cons.mp hp with h | h
        · subst h; omega
        · rcases List.mem_append.mp h with h' | h'
          · exact Nat.le_of_succ_le (hΔc p h')
          · exact hΔ p h'
      · rw [List.filter_cons]
        simp only [decide_eq_true_eq, if_true, List.length_cons]
        rw [List.filter_append, filter_depth_nil Δc depth hΔc,
          List.nil_append, hfil,
          range_map_cons rest.length (fun i => (depth, assignedState (idx + 1 + i) entry_count))]
        congr 1
        apply List.map_congr_left
        intro a _
        have : idx + 1 + 1 + a = idx + 1 + (a + 1) := by omega
        rw [this]
      · rw [hdc, hdc3]
        simp only [mDirs, filterIgnore_nil]
        simp [modelDirsList]
        omega
      · rw [hfc, hfc3]
        simp only [mFiles, filterIgnore_nil]
        simp [modelFilesList]
        omega
    | special nm =>
      simp only [process_entries_loop]
      obtain ⟨st', Δr, hok, hmono, htr, hΔ, hfil, hdc, hfc⟩ :=
        ih hgrest
          { st with levels := setLevel st.levels depth (assignedState (idx + 1) entry_count),
                    trace := st.trace ++ [(depth, assignedState (idx + 1) entry_count)] }
          (idx + 1) (SetBelow_setLevel st.levels depth depth _ hset)
      refine ⟨st', (depth, assignedState (idx + 1) entry_count) :: Δr, hok, ?_, ?_, ?_, ?_, ?_, ?_⟩
      · intro l' hl'
        exact hmono l' (setLevel_isSome_of st.levels depth _ l' hl')
      · simpa using htr
      · intro p hp
        rcases List.mem_cons.mp hp with h | h
        · subst h; omega
        · exact hΔ p h
      · rw [List.filter_cons]
        simp only [decide_eq_true_eq, if_true, List.length_cons]
        rw [hfil,
          range_map_cons rest.length (fun i => (depth, assignedState (idx + 1 + i) entry_count))]
        congr 1
        apply List.map_congr_left
        intro a _
        have : idx + 1 + 1 + a = idx + 1 + (a + 1) := by omega
        rw [this]
      · rw [hdc]
        simp [modelDirsList]
      · rw [hfc]
        simp [modelFilesList]

/-- The invocation contract of `generate_directory_hierarchy`: with enough
fuel, a nonempty path and all ancestor level states recorded, the walk
returns normally, only ever adds level-state entries, assigns states only
at depths strictly below the current entry, and advances the two counters
by exactly the number of directories and files visited in the subtree. -/
theorem genDirF_spec (fuel : Nat) :
    ∀ (node : Option FSEntry) (path0 : String) (x_spacing y_spacing depth : Nat)
      (sort_entries : Bool) (ignore_list : List String) (st : RSt),
      sizeOf node ≤ fuel → path0 ≠ "" → SetBelow st.levels (depth + 1) →
      GenOut node ignore_list depth st
        (genDirF fuel node path0 x_spacing y_spacing depth sort_entries ignore_list st) := by
  induction fuel with
  | zero =>
    intro node _ _ _ _ _ _ _ hsz _ _
    exact absurd hsz (by have := one_le_sizeOf_opt node; omega)
  | succ fuel ih =>
    intro node path0 x_spacing y_spacing depth sort_entries ignore_list st hsz hp hset
    cases node with
    | none =>
      simp only [genDirF, generate_directory_hierarchy_body,
        path_is_valid_none path0 x_spacing y_spacing depth st hp]
      exact ⟨_, [], rfl, fun _ h => h, by simp, by simp, by simp [mDirs], by simp [mFiles]⟩
    | some e =>
      cases e with
      | file nm =>
        have hsetd : SetBelow st.levels depth := fun l h1 h2 => hset l h1 (by omega)
        obtain ⟨s, hs⟩ :=
          generate_entry_string_ok st.levels path0 x_spacing y_spacing depth hsetd
        simp only [genDirF, generate_directory_hierarchy_body,
          path_is_valid_file nm path0 x_spacing y_spacing depth st s hp hs]
        exact ⟨_, [], rfl, fun _ h => h, by simp, by simp, by simp [mDirs], by simp [mFiles]⟩
      | special nm =>
        simp only [genDirF, generate_directory_hierarchy_body,
          path_is_valid_special nm path0 x_spacing y_spacing depth st hp]
        exact ⟨_, [], rfl, fun _ h => h, by simp, by simp, by simp [mDirs], by simp [mFiles]⟩
      | dir nm children =>
        have hsetd : SetBelow st.levels depth := fun l h1 h2 => hset l h1 (by omega)
        obtain ⟨s, hs⟩ :=
          generate_entry_string_ok st.levels
            (displayName st.levels depth (ensureSlash path0)) x_spacing y_spacing
            depth hsetd
        simp only [genDirF, generate_directory_hierarchy_body,
          path_is_valid_dir nm children path0 x_spacing y_spacing depth st hp, hs,
          process_directory_entries_body]
        have hpe : ensureSlash path0 ≠ "" := ensureSlash_ne_empty path0 hp
        have hg : ∀ e ∈ (if sort_entries then sortEntriesFn (filterIgnore ignore_list children)
              else filterIgnore ignore_list children),
            ∀ st2 : RSt, SetBelow st2.levels (depth + 1 + 1) →
            GenOut (some e) [] (depth + 1) st2
              (genDirF fuel (some e) (ensureSlash path0 ++ e.name) x_spacing y_spacing
                (depth + 1) sort_entries [] st2) := by
          intro e he st2 hset2
          have hmem : e ∈ children :=
            mem_of_mem_filterIgnore ignore_list children e
              (mem_of_mem_sortIf sort_entries (filterIgnore ignore_list children) e he)
          have hlt : sizeOf e < sizeOf children := List.sizeOf_lt_of_mem hmem
          have hsz' : sizeOf (some e) ≤ fuel := by
            have h1 : sizeOf (some (FSEntry.dir nm children)) =
                1 + (1 + sizeOf nm + sizeOf children) := by simp
            have h2 : sizeOf (some e) = 1 + sizeOf e := by simp
            omega
          exact ih (some e) (ensureSlash path0 ++ e.name) x_spacing y_spacing
            (depth + 1) sort_entries [] st2 hsz'
            (append_ne_empty_left (ensureSlash path0) e.name hpe) hset2
        obtain ⟨st', Δ, hok, hmono, htr, hΔ, _, hdc, hfc⟩ :=
          process_entries_loop_spec (genDirF fuel) (ensureSlash path0) x_spacing
            y_spacing (depth + 1) (get_directory_entry_count children) sort_entries
            (if sort_entries then sortEntriesFn (filterIgnore ignore_list children)
              else filterIgnore ignore_list children) hg
            { st with out := st.out ++ s ++ "\n" } 0 hset
        refine ⟨st', Δ, hok, hmono, htr, fun p hp' => hΔ p hp', ?_, ?_⟩
        · rw [hdc]
          simp only [mDirs, modelDirsList_sortIf]
        · rw [hfc]
          simp only [mFiles, modelFilesList_sortIf]

/-- Totality of the embedded walk: with `fuel ≥ sizeOf node` the
out-of-fuel sentinel is unreachable. -/
theorem lstree_walk_total (fuel : Nat) (node : Option FSEntry) (path0 : String)
    (x_spacing y_spacing depth : Nat) (sort_entries : Bool)
    (ignore_list : List String) (st : RSt) (hsz : sizeOf node ≤ fuel)
    (hp : path0 ≠ "") (hset : SetBelow st.levels (depth + 1)) :
    ∃ st', generate_directory_hierarchy fuel node path0 x_spacing y_spacing depth
      sort_entries ignore_list st = Res.ok st' := by
  obtain ⟨st', _, hok, _⟩ :=
    genDirF_spec fuel node path0 x_spacing y_spacing depth sort_entries ignore_list
      st hsz hp hset
  exact ⟨st', hok⟩

theorem newlineCount_append (a b : String) :
    newlineCount (a ++ b) = newlineCount a + newlineCount b := by
  simp [newlineCount, String.data_append, List.count_append]

theorem newlineCount_spaces (n : Nat) : newlineCount (spaces n) = 0 := by
  simp only [newlineCount, spaces]
  induction n with
  | zero => rfl
  | succ n ih => rw [List.replicate_succ, List.count_cons]; simp [ih]

theorem newlineCount_specSegment (levels : Nat → Option LevelState)
    (x_spacing l : Nat) : newlineCount (specSegment levels x_spacing l) = 0 := by
  rw [specSegment]
  by_cases h : levelsGet levels l = LevelState.ITERATING <;>
    simp [h, newlineCount_append, newlineCount_spaces] <;> decide

theorem newlineCount_specAncestorPad (levels : Nat → Option LevelState)
    (depth x_spacing : Nat) :
    newlineCount (specAncestorPad levels depth x_spacing) = 0 := by
  rw [specAncestorPad]
  induction (List.range' 1 (depth - 1)) with
  | nil => rfl
  | cons a L ih =>
    rw [List.map_cons, strConcat_cons, newlineCount_append, ih,
      newlineCount_specSegment]

theorem newlineCount_specPadRow (levels : Nat → Option LevelState)
    (depth x_spacing : Nat) :
    newlineCount (specPadRow levels depth x_spacing) = 1 := by
  rw [specPadRow, newlineCount_append, newlineCount_specAncestorPad]
  decide

theorem newlineCount_padBlock (levels : Nat → Option LevelState)
    (depth x_spacing y_spacing : Nat) :
    newlineCount (strConcat (List.replicate y_spacing
      (specPadRow levels depth x_spacing))) = y_spacing := by
  induction y_spacing with
  | zero => rfl
  | succ y ih =>
    rw [List.replicate_succ, strConcat_cons, newlineCount_append, ih,
      newlineCount_specPadRow]
    omega

theorem range_assigned_replicate (depth n : Nat) (hn : 1 ≤ n) :
    (List.range n).map (fun i => (depth, assignedState (0 + 1 + i) n)) =
      List.replicate (n - 1) (depth, LevelState.ITERATING) ++
        [(depth, LevelState.NOT_ITERATING)] := by
  obtain ⟨m, rfl⟩ : ∃ m, n = m + 1 := ⟨n - 1, by omega⟩
  rw [List.range_succ, List.map_append, List.map_cons, List.map_nil]
  have hlast : assignedState (0 + 1 + m) (m + 1) = LevelState.NOT_ITERATING := by
    simp [assignedState]
    omega
  have hhead : (List.range m).map
      (fun i => (depth, assignedState (0 + 1 + i) (m + 1)))
      = List.replicate m (depth, LevelState.ITERATING) := by
    apply List.eq_replicate_iff.mpr
    refine ⟨by simp, ?_⟩
    intro b hb
    obtain ⟨i, hi, rfl⟩ := List.mem_map.mp hb
    have : i < m := List.mem_range.mp hi
    simp [assignedState]
    omega
  rw [hhead, hlast]
  simp

/-- With the corrupted table `badLevels` (depth 2 recorded, its ancestor
depth 1 missing) any depth-2 entry render hits the missing-level exit. -/
theorem bad_entry_string (p : String) (x_spacing y_spacing : Nat) :
    generate_entry_string badLevels p x_spacing y_spacing 2 = Except.error 1 := by
  have hx : generate_x_padding_string badLevels 2 x_spacing = Except.error 1 := rfl
  have hnv : ¬ levelsGet badLevels 2 = LevelState.NO_VALUE := by decide
  rw [generate_entry_string, if_neg hnv]
  cases y_spacing with
  | zero => simp [yPadBuild, hx]
  | succ y =>
    rw [List.range_succ_eq_map]
    simp [yPadBuild, hx]

/-! ### Claims -/

/-- C1, counterexample.  The claim says an entry rendered at depth 1 with
`ySpacing = 1` is preceded by `ySpacing - 1 = 0` extra vertical-padding
lines; the code (`generate_entry_string`, loop condition
`depth > 0 || y > 0` at line 149) emits one padding line (`"│"`), so the
rendered string contains 1 newline, not 0. -/
theorem c1_counterexample :
    generate_entry_string lvOneIter "a.txt" 3 1 1 = Except.ok "│\n├───a.txt" ∧
    newlineCount "│\n├───a.txt" = 1 ∧ ¬ (newlineCount "│\n├───a.txt" = 1 - 1) := by
  refine ⟨rfl, by decide, by decide⟩

/-- C1, amended: every entry rendered at depth > 0 (whose own level state
is recorded and is not `NO_VALUE`) is preceded by exactly `ySpacing`
(not `ySpacing - 1`) extra vertical-padding lines, each consisting of
the ancestor padding followed by a lone vertical bar; an entry whose
level state is `NO_VALUE` (the root line and the single-file input, both
at depth 0) is emitted with no padding at all, so no padding line ever
precedes the very first emitted line of a run. -/
theorem c1_theorem :
    (∀ (levels : Nat → Option LevelState) (path : String)
      (x_spacing y_spacing depth : Nat), 0 < depth → SetBelow levels depth →
      levelsGet levels depth ≠ LevelState.NO_VALUE →
      generate_entry_string levels path x_spacing y_spacing depth =
        Except.ok (strConcat (List.replicate y_spacing
          (specPadRow levels depth x_spacing)) ++
          specEntryLine levels path depth x_spacing) ∧
      newlineCount (strConcat (List.replicate y_spacing
        (specPadRow levels depth x_spacing))) = y_spacing) ∧
    (∀ (levels : Nat → Option LevelState) (path : String)
      (x_spacing y_spacing depth : Nat),
      levelsGet levels depth = LevelState.NO_VALUE →
      generate_entry_string levels path x_spacing y_spacing depth =
        Except.ok path) := by
  constructor
  · intro levels path x_spacing y_spacing depth hd hset hnv
    exact ⟨generate_entry_string_eq levels path x_spacing y_spacing depth hd hset hnv,
      newlineCount_padBlock levels depth x_spacing y_spacing⟩
  · intro levels path x_spacing y_spacing depth h
    exact generate_entry_string_root levels path x_spacing y_spacing depth h

/-- Witness for C1's amended theorem at concrete inputs: depth 1, state
`ITERATING`, `x_spacing = 3`, `y_spacing = 2`, and the depth-0 root case. -/
theorem c1_witness :
    (generate_entry_string lvOneIter "f" 3 2 1 =
        Except.ok (strConcat (List.replicate 2 (specPadRow lvOneIter 1 3)) ++
          specEntryLine lvOneIter "f" 1 3) ∧
      newlineCount (strConcat (List.replicate 2 (specPadRow lvOneIter 1 3))) = 2) ∧
    generate_entry_string lvOneIter "docs/" 3 2 0 = Except.ok "docs/" :=
  ⟨c1_theorem.1 lvOneIter "f" 3 2 1 (by decide)
      (by intro l h1 h2; omega) (by decide),
    c1_theorem.2 lvOneIter "docs/" 3 2 0 (by decide)⟩

/-- C5, confirmed: the line of an entry rendered at depth d > 0 (after its
vertical padding) is, in order: for each ancestor depth `1 .. d-1` a
segment that is a vertical bar if that ancestor's recorded state is
`Iterating` and a blank otherwise, followed by `x_spacing` blanks (total
width `1 + x_spacing`); then the connector for depth d's own state (`├`
for `Iterating`, `└` for `NotIterating`); then exactly `x_spacing` copies
of the horizontal-rule character; then the display name.  A depth whose
recorded state is `NO_VALUE` (the depth-0 root) gets no padding and no
connector: the raw display name is emitted. -/
theorem c5_theorem :
    (∀ (levels : Nat → Option LevelState) (path : String)
      (x_spacing y_spacing depth : Nat), 0 < depth → SetBelow levels depth →
      levelsGet levels depth ≠ LevelState.NO_VALUE →
      generate_entry_string levels path x_spacing y_spacing depth =
        Except.ok (strConcat (List.replicate y_spacing
          (specPadRow levels depth x_spacing)) ++
          (specAncestorPad levels depth x_spacing ++
            (specConnector levels depth ++ (specRule x_spacing ++ path)))) ∧
      (∀ l, (specSegment levels x_spacing l).length = 1 + x_spacing) ∧
      (specRule x_spacing).length = x_spacing ∧
      (levelsGet levels depth = LevelState.ITERATING →
        specConnector levels depth = "├") ∧
      (levelsGet levels depth = LevelState.NOT_ITERATING →
        specConnector levels depth = "└")) ∧
    (∀ (levels : Nat → Option LevelState) (path : String)
      (x_spacing y_spacing : Nat), levelsGet levels 0 = LevelState.NO_VALUE →
      generate_entry_string levels path x_spacing y_spacing 0 = Except.ok path) := by
  constructor
  · intro levels path x_spacing y_spacing depth hd hset hnv
    refine ⟨generate_entry_string_eq levels path x_spacing y_spacing depth hd hset hnv,
      ?_, ?_, ?_, ?_⟩
    · intro l
      rw [specSegment, String.length_append]
      have h2 : (spaces x_spacing).length = x_spacing := by
        simp [spaces, String.length]
      have h1 : ((if levelsGet levels l = LevelState.ITERATING then "│" else " ") :
          String).length = 1 := by
        by_cases h : levelsGet levels l = LevelState.ITERATING
        · rw [if_pos h]; decide
        · rw [if_neg h]; decide
      rw [h1, h2]
    · induction x_spacing with
      | zero => rfl
      | succ x ih =>
        rw [specRule, List.replicate_succ, strConcat_cons, String.length_append]
        rw [specRule] at ih
        rw [ih]
        have h1 : ("─" : String).length = 1 := by decide
        omega
    · intro h
      rw [specConnector, if_pos h]
    · intro h
      rw [specConnector, if_neg (by rw [h]; decide)]
  · intro levels path x_spacing y_spacing h
    exact generate_entry_string_root levels path x_spacing y_spacing 0 h

/-- Witness for C5 at concrete inputs: depth 2 below a `NOT_ITERATING`
ancestor would be the `b.txt` line of the spec's example; here depth 1
with state `ITERATING`, `x_spacing = 3`, `y_spacing = 1`, plus the
depth-0 root case. -/
theorem c5_witness :
    (generate_entry_string lvOneIter "a.txt" 3 1 1 =
        Except.ok (strConcat (List.replicate 1 (specPadRow lvOneIter 1 3)) ++
          (specAncestorPad lvOneIter 1 3 ++
            (specConnector lvOneIter 1 ++ (specRule 3 ++ "a.txt")))) ∧
      (∀ l, (specSegment lvOneIter 3 l).length = 1 + 3) ∧
      (specRule 3).length = 3 ∧
      (levelsGet lvOneIter 1 = LevelState.ITERATING →
        specConnector lvOneIter 1 = "├") ∧
      (levelsGet lvOneIter 1 = LevelState.NOT_ITERATING →
        specConnector lvOneIter 1 = "└")) ∧
    generate_entry_string lvOneIter "docs/" 3 1 0 = Except.ok "docs/" :=
  ⟨c5_theorem.1 lvOneIter "a.txt" 3 1 1 (by decide)
      (by intro l h1 h2; omega) (by decide),
    c5_theorem.2 lvOneIter "docs/" 3 1 (by decide)⟩

/-- C2, code bug.  The claim (and the spec) say an ignored child is
excluded from the sibling-count/last-sibling computation.  In the code,
`get_directory_entry_count` counts ALL raw entries while the loop
iterates only the filtered ones, so with children `a.txt`, `b.txt` and
ignore list `["b.txt"]` (`entry_count = 2`), the only remaining child
`a.txt` gets `entry_index = 1 ≠ 2` and is assigned `ITERATING` (rendered
`├───a.txt`): no entry at that depth is marked `NOT_ITERATING`, where the
claim demands `a.txt` be the `NotIterating` last sibling (`└`). -/
theorem c2_theorem :
    (process_directory_entries 4 [FSEntry.file "a.txt", FSEntry.file "b.txt"]
      "d/" 3 1 1 2 true ["b.txt"] initRSt).state.trace =
        [(1, LevelState.ITERATING)] ∧
    (process_directory_entries 4 [FSEntry.file "a.txt", FSEntry.file "b.txt"]
      "d/" 3 1 1 2 true ["b.txt"] initRSt).state.out = "│\n├───a.txt\n" ∧
    ¬ ((1, LevelState.NOT_ITERATING) ∈
      (process_directory_entries 4 [FSEntry.file "a.txt", FSEntry.file "b.txt"]
        "d/" 3 1 1 2 true ["b.txt"] initRSt).state.trace) := by
  refine ⟨by decide, by decide, by decide⟩

/-- C6, counterexample.  As claimed, exactly one entry per directory
should receive `NotIterating`; but with an ignored child present
(children `x`, `y`, ignore list `["y"]`, raw `entry_count = 2`) the
remaining entry receives `ITERATING` and no entry at that depth receives
`NOT_ITERATING`. -/
theorem c6_counterexample :
    (process_directory_entries 4 [FSEntry.file "x", FSEntry.file "y"]
      "e/" 3 1 1 2 true ["y"] initRSt).state.trace = [(1, LevelState.ITERATING)] ∧
    ¬ ((1, LevelState.NOT_ITERATING) ∈
      (process_directory_entries 4 [FSEntry.file "x", FSEntry.file "y"]
        "e/" 3 1 1 2 true ["y"] initRSt).state.trace) := by
  refine ⟨by decide, by decide⟩

/-- C6, amended: for every nonempty directory NONE of whose children is on
the ignore list (so that the raw `entry_count` equals the number of
processed entries), the level-state assignments made at that directory's
depth are exactly one per entry in processing order, `Iterating` for all
but the last and `NotIterating` for the last one only. -/
theorem c6_theorem (fuel : Nat) (children : List FSEntry) (path : String)
    (x_spacing y_spacing depth entry_count : Nat) (sort_entries : Bool)
    (ignore_list : List String) (st : RSt)
    (hsz : sizeOf children ≤ fuel) (hp : path ≠ "")
    (hset : SetBelow st.levels depth)
    (hnig : filterIgnore ignore_list children = children)
    (hne : children ≠ [])
    (hcnt : entry_count = children.length) :
    ∃ st' Δ, process_directory_entries fuel children path x_spacing y_spacing
        depth entry_count sort_entries ignore_list st = Res.ok st' ∧
      st'.trace = st.trace ++ Δ ∧
      Δ.filter (fun p => decide (p.1 = depth)) =
        List.replicate (children.length - 1) (depth, LevelState.ITERATING) ++
          [(depth, LevelState.NOT_ITERATING)] := by
  subst hcnt
  have hg : ∀ e ∈ (if sort_entries then sortEntriesFn children else children),
      ∀ st2 : RSt, SetBelow st2.levels (depth + 1) →
      GenOut (some e) [] depth st2
        (genDirF fuel (some e) (path ++ e.name) x_spacing y_spacing depth
          sort_entries [] st2) := by
    intro e he st2 hs2
    have hmem := mem_of_mem_sortIf sort_entries children e he
    have hlt := List.sizeOf_lt_of_mem hmem
    have hsz' : sizeOf (some e) ≤ fuel := by
      have h2 : sizeOf (some e) = 1 + sizeOf e := by simp
      omega
    exact genDirF_spec fuel (some e) (path ++ e.name) x_spacing y_spacing depth
      sort_entries [] st2 hsz' (append_ne_empty_left path e.name hp) hs2
  obtain ⟨st', Δ, hok, _, htr, _, hfil, _, _⟩ :=
    process_entries_loop_spec (genDirF fuel) path x_spacing y_spacing depth
      children.length sort_entries
      (if sort_entries then sortEntriesFn children else children) hg st 0 hset
  refine ⟨st', Δ, ?_, htr, ?_⟩
  · rw [process_directory_entries, process_directory_entries_body, hnig]
    exact hok
  · rw [hfil]
    have hlen : (if sort_entries then sortEntriesFn children else children).length =
        children.length := by
      cases sort_entries with
      | false => rfl
      | true => simp [sortEntriesFn, List.length_insertionSort]
    rw [hlen]
    exact range_assigned_replicate depth children.length
      (by have := List.length_pos.mpr hne; omega)

/-- Witness for C6's amended theorem: two plain files, no ignore list. -/
theorem c6_witness :
    ∃ st' Δ, process_directory_entries (sizeOf [FSEntry.file "a", FSEntry.file "b"])
        [FSEntry.file "a", FSEntry.file "b"]
        "d/" 3 1 1 2 true [] initRSt = Res.ok st' ∧
      st'.trace = initRSt.trace ++ Δ ∧
      Δ.filter (fun p => decide (p.1 = 1)) =
        List.replicate ([FSEntry.file "a", FSEntry.file "b"].length - 1)
          (1, LevelState.ITERATING) ++ [(1, LevelState.NOT_ITERATING)] :=
  c6_theorem (sizeOf [FSEntry.file "a", FSEntry.file "b"])
    [FSEntry.file "a", FSEntry.file "b"] "d/" 3 1 1 2 true [] initRSt
    (Nat.le_refl _) (by decide) (by intro l h1 h2; omega)
    (filterIgnore_nil _) (List.cons_ne_nil _ _) (by decide)

/-- C10, confirmed.  A child that is neither a regular file nor a
directory hits neither branch of the dispatch at lines 262-279: the loop
step leaves the output, the error stream and both counters untouched, yet
the entry still occupies its sibling position (`entry_index` advances)
and still receives the level-state assignment of line 259 first.
Concretely, when such an entry is last in order it absorbs the
`NOT_ITERATING` state, so the rendered sibling `a` is marked `ITERATING`
(`├───a`) and no entry of the directory is rendered with `└`. -/
theorem c10_theorem :
    (∀ (gen_rec : Option FSEntry → String → Nat → Nat → Nat → Bool →
        List String → RSt → Res RSt)
      (nm path : String) (rest : List FSEntry)
      (x_spacing y_spacing depth entry_count : Nat) (sort_entries : Bool)
      (st : RSt) (idx : Nat),
      process_entries_loop gen_rec (FSEntry.special nm :: rest) path x_spacing
          y_spacing depth entry_count sort_entries st idx =
        process_entries_loop gen_rec rest path x_spacing y_spacing depth
          entry_count sort_entries
          { st with
              levels := setLevel st.levels depth (assignedState (idx + 1) entry_count),
              trace := st.trace ++ [(depth, assignedState (idx + 1) entry_count)] }
          (idx + 1)) ∧
    (process_directory_entries 4 [FSEntry.file "a", FSEntry.special "weird"]
        "d/" 3 1 1 2 true [] initRSt).state.trace =
      [(1, LevelState.ITERATING), (1, LevelState.NOT_ITERATING)] ∧
    (process_directory_entries 4 [FSEntry.file "a", FSEntry.special "weird"]
        "d/" 3 1 1 2 true [] initRSt).state.out = "│\n├───a\n" ∧
    (process_directory_entries 4 [FSEntry.file "a", FSEntry.special "weird"]
        "d/" 3 1 1 2 true [] initRSt).state.dirCount = 0 ∧
    (process_directory_entries 4 [FSEntry.file "a", FSEntry.special "weird"]
        "d/" 3 1 1 2 true [] initRSt).state.fileCount = 1 := by
  refine ⟨?_, by decide, by decide, by decide, by decide⟩
  intro gen_rec nm path rest x_spacing y_spacing depth entry_count sort_entries st idx
  rfl

/-- Witness instantiating the universal step equation of C10. -/
theorem c10_witness :
    process_entries_loop (genDirF 4) (FSEntry.special "s" :: []) "d/" 3 1 1 1
        true initRSt 0 =
      process_entries_loop (genDirF 4) [] "d/" 3 1 1 1 true
        { initRSt with
            levels := setLevel initRSt.levels 1 (assignedState (0 + 1) 1),
            trace := initRSt.trace ++ [(1, assignedState (0 + 1) 1)] } (0 + 1) :=
  c10_theorem.1 (genDirF 4) "s" "d/" [] 3 1 1 1 true initRSt 0

/-- C3, counterexample.  Running the spec's example (`docs/` with `a.txt`
and `sub/b.txt`, `x_spacing = 3`, `y_spacing = 1`, sorted) does NOT
produce the claimed output: the code inserts a vertical-padding `│` line
before every non-root entry even at `y_spacing = 1`, and counts the root
directory, printing `2 directories`. -/
theorem c3_counterexample :
    (runMain 4 (some docsTree) "docs" 3 1 true []).1.out ≠
      "docs/\n├───a.txt\n└───sub/\n    └───b.txt\n\n1 directory, 2 files\n" := by
  decide

/-- C3, amended: the run on the example tree prints `docs/`, then each
entry preceded by one vertical-padding line, and the summary counts the
root, giving `2 directories, 2 files`; the process exits with status 0. -/
theorem c3_theorem :
    (runMain 4 (some docsTree) "docs" 3 1 true []).1.out =
      "docs/\n│\n├───a.txt\n│\n└───sub/\n    │\n    └───b.txt\n\n2 directories, 2 files\n" ∧
    (runMain 4 (some docsTree) "docs" 3 1 true []).2 = 0 := by
  refine ⟨by decide, by decide⟩

/-- C4, code bug.  The claim (and the spec's step 3) say ignore-list
filtering applies to the children at every level of the recursion.  The
recursive call at lines 276-278 omits `ignore_list`, so the `{}` default
applies below the top level: running on `root/sub/junk` with ignore list
`["junk"]` still renders the line `    └───junk` (and counts the file),
while the same name directly under the root IS filtered (second run). -/
theorem c4_theorem :
    (runMain 4 (some junkTree) "root" 3 1 true ["junk"]).1.out =
      "root/\n│\n└───sub/\n    │\n    └───junk\n\n2 directories, 1 file\n" ∧
    (runMain 4 (some junkTree) "root" 3 1 true ["junk"]).2 = 0 ∧
    (runMain 4 (some (FSEntry.dir "r" [FSEntry.file "junk"])) "r" 3 1 true
      ["junk"]).1.out = "r/\n\n1 directory, 0 files\n" := by
  refine ⟨by decide, by decide, by decide⟩

/-- C7, counterexample.  The claim says that on an `InvalidLevelState`
error the affected subtree is abandoned but the top-level run still
completes and prints a summary.  In the code, a missing ancestor level
makes `generate_x_padding_string` call `exit(1)` (lines 117-120): the
invocation does not return, the process terminates with status 1, and
nothing more — in particular no summary — is printed.  Here: rendering a
file entry at depth 2 while depth 1 is unrecorded. -/
theorem c7_counterexample :
    (generate_directory_hierarchy 4 (some (FSEntry.file "f.txt")) "f.txt" 3 1 2
      true [] badRSt).isOk = false ∧
    (generate_directory_hierarchy 4 (some (FSEntry.file "f.txt")) "f.txt" 3 1 2
      true [] badRSt).exitCode = some 1 ∧
    (generate_directory_hierarchy 4 (some (FSEntry.file "f.txt")) "f.txt" 3 1 2
      true [] badRSt).state.err = "Level 1 doesn't exist!\n" ∧
    (generate_directory_hierarchy 4 (some (FSEntry.file "f.txt")) "f.txt" 3 1 2
      true [] badRSt).state.out = "" := by
  refine ⟨by decide, by decide, by decide, by decide⟩

/-- C7, amended: `EmptyPath` and `PathNotFound` are reported to the error
stream and abort only that invocation — the top-level run still completes
with exit status 0 and prints the summary of entries counted so far
(`0 directories, 0 files`).  `InvalidLevelState` (a missing ancestor
level during padding generation) instead terminates the whole process
immediately with exit status 1, printing no summary; in runs started from
`main` the recursion invariant keeps that state unreachable
(`lstree_walk_total`). -/
theorem c7_theorem :
    (∀ (fuel x_spacing y_spacing : Nat) (sort_entries : Bool)
      (ignore_list : List String), 1 ≤ fuel →
      (runMain fuel none "" x_spacing y_spacing sort_entries ignore_list).1.err =
        "Error: Path is empty!\n" ∧
      (runMain fuel none "" x_spacing y_spacing sort_entries ignore_list).1.out =
        "\n0 directories, 0 files\n" ∧
      (runMain fuel none "" x_spacing y_spacing sort_entries ignore_list).2 = 0) ∧
    (∀ (fuel x_spacing y_spacing : Nat) (sort_entries : Bool)
      (ignore_list : List String) (p : String), 1 ≤ fuel → p ≠ "" →
      (runMain fuel none p x_spacing y_spacing sort_entries ignore_list).1.err =
        "Error: Path is neither a file nor a directory!\n" ∧
      (runMain fuel none p x_spacing y_spacing sort_entries ignore_list).1.out =
        "\n0 directories, 0 files\n" ∧
      (runMain fuel none p x_spacing y_spacing sort_entries ignore_list).2 = 0) ∧
    (∀ (fuel x_spacing y_spacing : Nat) (sort_entries : Bool)
      (ignore_list : List String), 1 ≤ fuel →
      (generate_directory_hierarchy fuel (some (FSEntry.file "f.txt")) "f.txt"
        x_spacing y_spacing 2 sort_entries ignore_list badRSt).exitCode = some 1 ∧
      (generate_directory_hierarchy fuel (some (FSEntry.file "f.txt")) "f.txt"
        x_spacing y_spacing 2 sort_entries ignore_list badRSt).state.err =
        levelErrMsg 1 ∧
      (generate_directory_hierarchy fuel (some (FSEntry.file "f.txt")) "f.txt"
        x_spacing y_spacing 2 sort_entries ignore_list badRSt).state.out = "") := by
  refine ⟨?_, ?_, ?_⟩
  · intro fuel x_spacing y_spacing sort_entries ignore_list hf
    obtain ⟨f, rfl⟩ : ∃ f, fuel = f + 1 := ⟨fuel - 1, by omega⟩
    refine ⟨?_, ?_, ?_⟩ <;>
      · simp [runMain, fsIsFile, fsIsDir, generate_directory_hierarchy, genDirF,
          generate_directory_hierarchy_body, path_is_valid, initRSt, summaryString]
        try decide
  · intro fuel x_spacing y_spacing sort_entries ignore_list p hf hp
    obtain ⟨f, rfl⟩ : ∃ f, fuel = f + 1 := ⟨fuel - 1, by omega⟩
    refine ⟨?_, ?_, ?_⟩ <;>
      · simp [runMain, fsIsFile, fsIsDir, generate_directory_hierarchy, genDirF,
          generate_directory_hierarchy_body, path_is_valid, initRSt, summaryString,
          hp]
        try decide
  · intro fuel x_spacing y_spacing sort_entries ignore_list hf
    obtain ⟨f, rfl⟩ : ∃ f, fuel = f + 1 := ⟨fuel - 1, by omega⟩
    refine ⟨?_, ?_, ?_⟩ <;>
      · simp [generate_directory_hierarchy, genDirF, generate_directory_hierarchy_body,
          path_is_valid, bad_entry_string, badRSt, initRSt, Res.exitCode, Res.state,
          levelErrMsg]
        try decide

/-- Witness for C7's amended theorem at concrete inputs. -/
theorem c7_witness :
    ((runMain 1 none "" 3 1 true []).1.err = "Error: Path is empty!\n" ∧
      (runMain 1 none "" 3 1 true []).1.out = "\n0 directories, 0 files\n" ∧
      (runMain 1 none "" 3 1 true []).2 = 0) ∧
    ((runMain 1 none "missing" 3 1 true []).1.err =
        "Error: Path is neither a file nor a directory!\n" ∧
      (runMain 1 none "missing" 3 1 true []).1.out = "\n0 directories, 0 files\n" ∧
      (runMain 1 none "missing" 3 1 true []).2 = 0) ∧
    ((generate_directory_hierarchy 1 (some (FSEntry.file "f.txt")) "f.txt" 3 1 2
        true [] badRSt).exitCode = some 1 ∧
      (generate_directory_hierarchy 1 (some (FSEntry.file "f.txt")) "f.txt" 3 1 2
        true [] badRSt).state.err = levelErrMsg 1 ∧
      (generate_directory_hierarchy 1 (some (FSEntry.file "f.txt")) "f.txt" 3 1 2
        true [] badRSt).state.out = "") :=
  ⟨c7_theorem.1 1 3 1 true [] (by decide),
    c7_theorem.2.1 1 3 1 true [] "missing" (by decide) (by decide),
    c7_theorem.2.2 1 3 1 true [] (by decide)⟩

/-- C8, confirmed.  When the input path is a directory, the summary
reports `1 + (subdirectories visited)` directories — the `1` being the
root, set before the traversal at line 392 — and exactly the files
visited, with the singular form used exactly for a count of one.  The
visited entries are the root's children minus the top-level ignore
matches, plus all their (unfiltered) descendants, as counted by
`modelDirsList` / `modelFilesList`. -/
theorem c8_theorem (fuel : Nat) (nm : String) (children : List FSEntry)
    (path : String) (x_spacing y_spacing : Nat) (sort_entries : Bool)
    (ignore_list : List String)
    (hsz : sizeOf (some (FSEntry.dir nm children)) ≤ fuel) (hp : path ≠ "") :
    (runMain fuel (some (FSEntry.dir nm children)) path x_spacing y_spacing
      sort_entries ignore_list).2 = 0 ∧
    (runMain fuel (some (FSEntry.dir nm children)) path x_spacing y_spacing
      sort_entries ignore_list).1.dirCount =
        1 + modelDirsList (filterIgnore ignore_list children) ∧
    (runMain fuel (some (FSEntry.dir nm children)) path x_spacing y_spacing
      sort_entries ignore_list).1.fileCount =
        modelFilesList (filterIgnore ignore_list children) ∧
    (runMain fuel (some (FSEntry.dir nm children)) path x_spacing y_spacing
      sort_entries ignore_list).1.out =
      (generate_directory_hierarchy fuel (some (FSEntry.dir nm children)) path
        x_spacing y_spacing 0 sort_entries ignore_list
        { initRSt with dirCount := 1 }).state.out ++
      specSummary (1 + modelDirsList (filterIgnore ignore_list children))
        (modelFilesList (filterIgnore ignore_list children)) := by
  obtain ⟨st', Δ, hok, _, _, _, hdc, hfc⟩ :=
    genDirF_spec fuel (some (FSEntry.dir nm children)) path x_spacing y_spacing 0
      sort_entries ignore_list { initRSt with dirCount := 1 } hsz hp
      (by intro l h1 h2; omega)
  have hfsf : fsIsFile (some (FSEntry.dir nm children)) path = false := by
    simp [fsIsFile, hp]
  have hfsd : fsIsDir (some (FSEntry.dir nm children)) path = true := by
    simp [fsIsDir, hp]
  have hrw : runMain fuel (some (FSEntry.dir nm children)) path x_spacing
      y_spacing sort_entries ignore_list =
      ({ st' with out := st'.out ++ summaryString st'.dirCount st'.fileCount }, 0) := by
    simp [runMain, hfsf, hfsd, generate_directory_hierarchy, hok]
  simp only [mDirs, mFiles, initRSt] at hdc hfc
  rw [Nat.zero_add] at hfc
  rw [hrw]
  refine ⟨rfl, ?_, ?_, ?_⟩
  · exact hdc
  · exact hfc
  · simp only [generate_directory_hierarchy, hok, Res.state]
    rw [hdc, hfc, summaryString_eq_spec]

/-- Witness for C8 on the example tree with enough fuel. -/
theorem c8_witness :
    (runMain (sizeOf (some (FSEntry.dir "docs"
          [FSEntry.file "a.txt", FSEntry.dir "sub" [FSEntry.file "b.txt"]])))
      (some (FSEntry.dir "docs"
        [FSEntry.file "a.txt", FSEntry.dir "sub" [FSEntry.file "b.txt"]]))
      "docs" 3 1 true []).2 = 0 ∧
    (runMain (sizeOf (some (FSEntry.dir "docs"
          [FSEntry.file "a.txt", FSEntry.dir "sub" [FSEntry.file "b.txt"]])))
      (some (FSEntry.dir "docs"
        [FSEntry.file "a.txt", FSEntry.dir "sub" [FSEntry.file "b.txt"]]))
      "docs" 3 1 true []).1.dirCount =
        1 + modelDirsList (filterIgnore []
          [FSEntry.file "a.txt", FSEntry.dir "sub" [FSEntry.file "b.txt"]]) ∧
    (runMain (sizeOf (some (FSEntry.dir "docs"
          [FSEntry.file "a.txt", FSEntry.dir "sub" [FSEntry.file "b.txt"]])))
      (some (FSEntry.dir "docs"
        [FSEntry.file "a.txt", FSEntry.dir "sub" [FSEntry.file "b.txt"]]))
      "docs" 3 1 true []).1.fileCount =
        modelFilesList (filterIgnore []
          [FSEntry.file "a.txt", FSEntry.dir "sub" [FSEntry.file "b.txt"]]) ∧
    (runMain (sizeOf (some (FSEntry.dir "docs"
          [FSEntry.file "a.txt", FSEntry.dir "sub" [FSEntry.file "b.txt"]])))
      (some (FSEntry.dir "docs"
        [FSEntry.file "a.txt", FSEntry.dir "sub" [FSEntry.file "b.txt"]]))
      "docs" 3 1 true []).1.out =
      (generate_directory_hierarchy (sizeOf (some (FSEntry.dir "docs"
          [FSEntry.file "a.txt", FSEntry.dir "sub" [FSEntry.file "b.txt"]])))
        (some (FSEntry.dir "docs"
          [FSEntry.file "a.txt", FSEntry.dir "sub" [FSEntry.file "b.txt"]]))
        "docs" 3 1 0 true [] { initRSt with dirCount := 1 }).state.out ++
      specSummary (1 + modelDirsList (filterIgnore []
          [FSEntry.file "a.txt", FSEntry.dir "sub" [FSEntry.file "b.txt"]]))
        (modelFilesList (filterIgnore []
          [FSEntry.file "a.txt", FSEntry.dir "sub" [FSEntry.file "b.txt"]])) :=
  c8_theorem (sizeOf (some (FSEntry.dir "docs"
      [FSEntry.file "a.txt", FSEntry.dir "sub" [FSEntry.file "b.txt"]])))
    "docs" [FSEntry.file "a.txt", FSEntry.dir "sub" [FSEntry.file "b.txt"]]
    "docs" 3 1 true [] (Nat.le_refl _) (by decide)

/-- C9, confirmed.  For a regular-file initial path the run prints exactly
one entry line — the path itself, rendered with no padding since depth 0
carries `NO_VALUE` — then the fixed summary `0 directories, 1 file`; no
directory is entered (the directory counter stays 0), nothing is written
to the error stream, and the exit status is 0. -/
theorem c9_theorem (fuel : Nat) (nm p : String) (x_spacing y_spacing : Nat)
    (sort_entries : Bool) (ignore_list : List String) (hf : 1 ≤ fuel)
    (hp : p ≠ "") :
    (runMain fuel (some (FSEntry.file nm)) p x_spacing y_spacing sort_entries
      ignore_list).1.out = p ++ "\n" ++ "\n0 directories, 1 file\n" ∧
    (runMain fuel (some (FSEntry.file nm)) p x_spacing y_spacing sort_entries
      ignore_list).1.err = "" ∧
    (runMain fuel (some (FSEntry.file nm)) p x_spacing y_spacing sort_entries
      ignore_list).1.dirCount = 0 ∧
    (runMain fuel (some (FSEntry.file nm)) p x_spacing y_spacing sort_entries
      ignore_list).2 = 0 := by
  obtain ⟨f, rfl⟩ : ∃ f, fuel = f + 1 := ⟨fuel - 1, by omega⟩
  have hpv := path_is_valid_file nm p x_spacing y_spacing 0
    { levels := fun d => if d = 0 then some LevelState.NO_VALUE else none,
      dirCount := 0, fileCount := 1, out := "", err := "", trace := [] } p hp
    (generate_entry_string_root _ p x_spacing y_spacing 0 (by decide))
  have hfsf : fsIsFile (some (FSEntry.file nm)) p = true := by
    simp [fsIsFile, hp]
  refine ⟨?_, ?_, ?_, ?_⟩ <;>
    simp [runMain, hfsf, generate_directory_hierarchy, genDirF,
      generate_directory_hierarchy_body, initRSt, hpv, String.empty_append]

/-- Witness for C9 at a concrete single-file input. -/
theorem c9_witness :
    (runMain 1 (some (FSEntry.file "notes.txt")) "notes.txt" 3 1 true []).1.out =
      "notes.txt" ++ "\n" ++ "\n0 directories, 1 file\n" ∧
    (runMain 1 (some (FSEntry.file "notes.txt")) "notes.txt" 3 1 true []).1.err = "" ∧
    (runMain 1 (some (FSEntry.file "notes.txt")) "notes.txt" 3 1 true []).1.dirCount = 0 ∧
    (runMain 1 (some (FSEntry.file "notes.txt")) "notes.txt" 3 1 true []).2 = 0 :=
  c9_theorem 1 "notes.txt" "notes.txt" 3 1 true [] (by decide) (by decide)

end Lstree
